import Mathlib

/-!
Verification development for the single-page website chatbot
(crawler / text processor / vector store / QA engine).

The Python sources are embedded shallowly: strings are Lean `String`s
(processed through their `List Char` data), the stateful fallback embedder
threads an explicit vocabulary state, fallible calls (vector-store retrieval,
the chat-completion HTTP request) are parameters ranging over their possible
outcomes, and numpy float arithmetic is modelled exactly over `ℚ` (the final
L2 normalisation, a division by a float square root, is represented by the
pair "raw accumulated vector, squared norm"; the denoted real vector is
`raw[i] / Real.sqrt normSq`).
-/

set_option maxRecDepth 8192

namespace Chatbot

/-! ### Python string primitives -/

/-- Python `str` whitespace (ASCII): the six characters `\s` matches. -/
def pyIsSpace (c : Char) : Bool :=
  c = ' ' || c = '\t' || c = '\n' || c = '\x0b' || c = '\x0c' || c = '\r'

/-- Core of Python `str.strip()`: drop leading and trailing whitespace. -/
def stripCore (l : List Char) : List Char :=
  ((l.dropWhile pyIsSpace).reverse.dropWhile pyIsSpace).reverse

/-- Python `str.strip()`. -/
def pyStrip (s : String) : String := ⟨stripCore s.data⟩

/-- Python `str.lower()` (ASCII range, which covers all text used here). -/
def pyLower (s : String) : String := ⟨s.data.map Char.toLower⟩

/-- Word accumulator for `str.split()` without arguments:
`cur` is the current in-progress word, reversed. -/
def wordsAux : List Char → List Char → List (List Char)
  | cur, [] => if cur.isEmpty then [] else [cur.reverse]
  | cur, c :: rest =>
    if pyIsSpace c then
      if cur.isEmpty then wordsAux [] rest else cur.reverse :: wordsAux [] rest
    else wordsAux (c :: cur) rest

/-- Python `str.split()` with no separator: whitespace-delimited words,
no empty pieces. -/
def pyWords (s : String) : List String :=
  (wordsAux [] s.data).map fun l => ⟨l⟩

/-- Core of Python `str.split(sep)` for a one-character separator:
splits at every occurrence, keeping empty pieces. -/
def splitChCore (sep : Char) : List Char → List (List Char)
  | [] => [[]]
  | c :: rest =>
    if c = sep then [] :: splitChCore sep rest
    else
      match splitChCore sep rest with
      | [] => [[c]]
      | w :: ws => (c :: w) :: ws

/-- Python `str.split(sep)` for a one-character separator. -/
def pySplitCh (s : String) (sep : Char) : List String :=
  (splitChCore sep s.data).map fun l => ⟨l⟩

/-- Substring test on character lists: does `pat` occur contiguously? -/
def infixCore (pat : List Char) : List Char → Bool
  | [] => pat.isEmpty
  | c :: rest => pat.isPrefixOf (c :: rest) || infixCore pat rest

/-- Python `sub in s`. -/
def containsStr (s sub : String) : Bool := infixCore sub.data s.data

/-- Python `s.startswith(pre)`. -/
def pyStartsWith (s pre : String) : Bool := pre.data.isPrefixOf s.data

/-- The apostrophe character, used to spell the QA engine's phrase constants. -/
def apos : Char := Char.ofNat 39

/-! ### text_processor.py -/

/-- One pass of `re.sub(r'\s+', ' ', text)`: every maximal run of whitespace
becomes a single space.  `inRun` records whether we are inside a run whose
replacement space was already emitted. -/
def collapseWsAux : Bool → List Char → List Char
  | _, [] => []
  | inRun, c :: rest =>
    if pyIsSpace c then
      if inRun then collapseWsAux true rest
      else ' ' :: collapseWsAux true rest
    else c :: collapseWsAux false rest

/-- `re.sub(r'\s+', ' ', text)`. -/
def collapseWsCore (l : List Char) : List Char := collapseWsAux false l

/-- The trailing part of a whitespace run after its last newline. -/
def afterLastNl (run : List Char) : List Char :=
  (run.reverse.takeWhile (fun c => c ≠ '\n')).reverse

/-- Effect of `re.sub(r'\n\s*\n', '\n\n', text)` on one maximal whitespace
run: a match exists exactly when the run holds at least two newlines, and the
regex engine consumes from the first to the last newline of the run. -/
def nlRunFix (run : List Char) : List Char :=
  if 2 ≤ run.count '\n' then
    (run.takeWhile (fun c => c ≠ '\n')) ++ '\n' :: '\n' :: afterLastNl run
  else run

/-- Scanner for `re.sub(r'\n\s*\n', '\n\n', text)`: gathers maximal
whitespace runs (in `pending`, reversed) and rewrites each with `nlRunFix`. -/
def nlCollapseAux : List Char → List Char → List Char
  | pending, [] => nlRunFix pending.reverse
  | pending, c :: rest =>
    if pyIsSpace c then nlCollapseAux (c :: pending) rest
    else nlRunFix pending.reverse ++ c :: nlCollapseAux [] rest

/-- `re.sub(r'\n\s*\n', '\n\n', text)`. -/
def nlCollapseCore (l : List Char) : List Char := nlCollapseAux [] l

/-- Does `re.search(r'[.!?]$', line)` succeed (line has no embedded newline
after splitting, so this is a last-character test)? -/
def endsTerminal (l : List Char) : Bool :=
  match l.getLast? with
  | some c => c = '.' || c = '!' || c = '?'
  | none => false

/-- Join lines with a single newline, `'\n'.join(lines)`. -/
def joinNl : List (List Char) → List Char
  | [] => []
  | [l] => l
  | l :: ls => l ++ '\n' :: joinNl ls

/-- `TextProcessor._clean_text`: collapse whitespace runs on the stripped
text, collapse blank-line runs, then keep each (stripped) line only if it
has at least 10 characters or ends in `.`, `!` or `?`; join and strip. -/
def clean_text (text : String) : String :=
  if text = "" then ""
  else
    let t1 := collapseWsCore (stripCore text.data)
    let t2 := nlCollapseCore t1
    let lines := (splitChCore '\n' t2).map stripCore
    let kept := lines.filter (fun l => 10 ≤ l.length || endsTerminal l)
    ⟨stripCore (joinNl kept)⟩

/-- Metadata attached to each chunk, mirroring the Python dict literal. -/
structure DocMetadata where
  source_url : String
  page_title : String
  chunk_index : Nat
  total_chunks : Nat
deriving DecidableEq, Repr

/-- A LangChain `Document`: page content plus metadata. -/
structure Document where
  page_content : String
  metadata : DocMetadata
deriving DecidableEq, Repr

/-- The `content_data` dict: `title` and `content` keys may be absent. -/
structure ContentData where
  title : Option String
  content : Option String
deriving DecidableEq, Repr

/-- The `for i, chunk in enumerate(chunks)` loop of `process_and_chunk`:
build a `Document` per chunk with stripped content and positional metadata. -/
def docsLoop (source_url page_title : String) (total : Nat) :
    Nat → List String → List Document
  | _, [] => []
  | i, chunk :: rest =>
    ⟨pyStrip chunk, ⟨source_url, page_title, i, total⟩⟩ ::
      docsLoop source_url page_title total (i + 1) rest

/-- `TextProcessor.process_and_chunk`.  The LangChain
`RecursiveCharacterTextSplitter.split_text` is external library code and is a
parameter `splitText`; `content_data` is `none` for a falsy/None dict or a
dict with no `content` key. -/
def process_and_chunk (splitText : String → List String)
    (content_data : Option ContentData) (source_url : String) : List Document :=
  match content_data with
  | none => []
  | some cd =>
    match cd.content with
    | none => []
    | some content =>
      let cleaned := clean_text content
      if pyStrip cleaned = "" then []
      else
        let chunks := splitText cleaned
        docsLoop source_url (cd.title.getD "Untitled Page") chunks.length 0 chunks

/-- A string with neither leading nor trailing Python whitespace. -/
def hasNoEdgeWs (s : String) : Bool :=
  (match s.data.head? with | some c => !pyIsSpace c | none => true) &&
    (match s.data.getLast? with | some c => !pyIsSpace c | none => true)

example : clean_text "hi\nThis is a sufficiently long line." =
    "hi This is a sufficiently long line." := by decide

example : pyWords "  a bb  " = ["a", "bb"] := by decide

example : pySplitCh "a.b..c" '.' = ["a", "b", "", "c"] := by decide

/-! ### urllib.parse (stdlib code called by utils.py, crawler.py and
vector_store.py) -/

/-- Characters legal in a URL scheme after the first (`urllib.parse.scheme_chars`). -/
def isSchemeChar (c : Char) : Bool :=
  c.isAlpha || c.isDigit || c = '+' || c = '-' || c = '.'

/-- The input sanitisation `urlsplit` performs: strip leading
C0-control-or-space bytes (leading only — trailing ones are deliberately
preserved by CPython), then delete every tab, carriage return and
newline. -/
def sanitizeUrl (l : List Char) : List Char :=
  (l.dropWhile (fun c => c.val ≤ 32)).filter
    (fun c => c ≠ '\t' && c ≠ '\r' && c ≠ '\n')

/-- Scheme/netloc extraction of `urllib.parse.urlsplit` (and hence
`urlparse`): a scheme is everything before the first `:` when that part
starts with a letter and uses only scheme characters (lower-cased in the
result); the netloc is what follows a leading `//`, up to the first `/`,
`?` or `#`.  The IPv6 bracket validity check, which can only raise, is
layered on top in `urlsplitChecked`. -/
def urlsplitCore (l : List Char) : List Char × List Char :=
  let l := sanitizeUrl l
  let (scheme, rest) :=
    match l.findIdx? (fun c => c = ':') with
    | some i =>
      if 0 < i && (l.take i).all isSchemeChar &&
          (match l.head? with | some c => c.isAlpha | none => false) then
        ((l.take i).map Char.toLower, l.drop (i + 1))
      else ([], l)
    | none => ([], l)
  let netloc :=
    match rest with
    | '/' :: '/' :: r => r.takeWhile (fun c => c ≠ '/' && c ≠ '?' && c ≠ '#')
    | _ => []
  (scheme, netloc)

/-- `urllib.parse.urlsplit` itself: the scheme/netloc extraction together
with the IPv6 bracket validity check — a netloc holding `[` without `]` or
`]` without `[` raises `ValueError("Invalid IPv6 URL")`, modelled as
`Except.error` (CPython 3.11 semantics; the bracketed-host content
validation added in later versions is not modelled). -/
def urlsplitChecked (l : List Char) : Except Unit (List Char × List Char) :=
  let p := urlsplitCore l
  if (p.2.contains '[' && !p.2.contains ']') ||
      (p.2.contains ']' && !p.2.contains '[') then .error ()
  else .ok p

/-- Does `urlsplit` return without raising? -/
def urlsplitOk (l : List Char) : Bool :=
  match urlsplitChecked l with
  | .ok _ => true
  | .error _ => false

/-- `urlparse(url).scheme` — the value returned whenever `urlsplit` does
not raise. -/
def urlscheme (url : String) : String := ⟨(urlsplitCore url.data).1⟩

/-- `urlparse(url).netloc` — the value returned whenever `urlsplit` does
not raise. -/
def urlnetloc (url : String) : String := ⟨(urlsplitCore url.data).2⟩

/-- `utils.validate_url`: `urlparse` inside a bare `try`/`except` (a raised
`ValueError` yields `False`), then nonempty netloc and scheme in
`['http', 'https']`. -/
def validate_url (url : String) : Bool :=
  if urlsplitOk url.data then
    decide (urlnetloc url ≠ "") &&
      decide (urlscheme url = "http" ∨ urlscheme url = "https")
  else false

/-- `WebsiteCrawler._is_valid_url`: the same `try`/`except` shape, with
nonempty netloc and any nonempty scheme. -/
def is_valid_url (url : String) : Bool :=
  if urlsplitOk url.data then
    decide (urlnetloc url ≠ "") && decide (urlscheme url ≠ "")
  else false

example : urlscheme "ftp://example.com" = "ftp" := by decide
example : urlnetloc "HTTP://www.Ex-1.com/a/b?q=1" = "www.Ex-1.com" := by decide
example : validate_url "https://example.com" = true := by decide
example : validate_url "example.com" = false := by decide
example : urlsplitOk "http://[".data = false := by decide
example : validate_url "http://[" = false := by decide
example : is_valid_url "http://[" = false := by decide
example : validate_url "http://[::1]/x" = true := by decide

/-! ### vector_store.py: collection names -/

/-- A character in `[a-zA-Z0-9]`. -/
def isAlnum (c : Char) : Bool := c.isAlpha || c.isDigit

/-- A character in `[a-zA-Z0-9.-]`, the set ChromaDB collection names keep. -/
def isCollChar (c : Char) : Bool := isAlnum c || c = '.' || c = '-'

/-- The `www.`-prefix strip of `_generate_collection_name`. -/
def stripWww (l : List Char) : List Char :=
  if "www.".data.isPrefixOf l then l.drop 4 else l

/-- `re.sub(r'[^a-zA-Z0-9.-]', '-', domain)`. -/
def mapInvalid (l : List Char) : List Char :=
  l.map (fun c => if isCollChar c then c else '-')

/-- The two edge-trimming substitutions
`re.sub(r'^[^a-zA-Z0-9]+', '', ...)` and `re.sub(r'[^a-zA-Z0-9]+$', '', ...)`. -/
def trimEdges (l : List Char) : List Char :=
  ((l.dropWhile (fun c => !isAlnum c)).reverse.dropWhile
    (fun c => !isAlnum c)).reverse

/-- The minimum-length fixup `f"site-{domain or 'default'}"` applied when
the trimmed domain is shorter than 3 characters. -/
def padShort (l : List Char) : List Char :=
  if l.length < 3 then
    "site-".data ++ (if l.isEmpty then "default".data else l)
  else l

/-- The domain-processing part of `_generate_collection_name`, applied to
`urlparse(source_url).netloc`: strip a leading `www.`, replace characters
outside `[a-zA-Z0-9.-]` with `-`, trim non-alphanumeric edges, prefix with
`site-` (over `default` when empty) if shorter than 3, truncate to 50. -/
def collection_name_of_domain (domain : String) : String :=
  ⟨(padShort (trimEdges (mapInvalid (stripWww domain.data)))).take 50⟩

/-- `VectorStoreManager._generate_collection_name`. -/
def generate_collection_name (source_url : String) : String :=
  collection_name_of_domain (urlnetloc source_url)

/-- The minimum-length fixup as the spec claim words it: only the fixed
`site-` prefix is prepended, with no `default` placeholder for an empty
result. -/
def padShortClaim (l : List Char) : List Char :=
  if l.length < 3 then "site-".data ++ l else l

/-- The derivation as the spec claim words it, for comparison with
`generate_collection_name`. -/
def claimCollectionName (source_url : String) : String :=
  ⟨(padShortClaim (trimEdges (mapInvalid (stripWww
    (urlnetloc source_url).data)))).take 50⟩

/-- Conformance to `^[A-Za-z0-9][A-Za-z0-9.-]*$`. -/
def validCollName (s : String) : Bool :=
  match s.data with
  | [] => false
  | c :: rest => isAlnum c && rest.all isCollChar

example : generate_collection_name "https://www.example.com/page" =
    "example.com" := by decide
example : generate_collection_name "http://!!!" = "site-default" := by decide
example : claimCollectionName "http://!!!" = "site-" := by decide

/-! ### vector_store.py: SimpleEmbeddingFallback

The numpy float arithmetic of `_encode_texts` is modelled exactly over `ℚ`
(every operation before the final normalisation is an exact sum of small
dyadic-free rationals; rounding cannot change which entries are zero).  The
final `embedding / norm` step divides by the float square root of the sum of
squares; it is represented by returning the pair (raw vector, squared norm):
the denoted normalised vector is `fun i => raw[i] / Real.sqrt normSq`
whenever `normSq > 0`, and `raw` itself otherwise. -/

/-- The mutable `self.vocab` / `self.vocab_size` of `SimpleEmbeddingFallback`;
the association list keeps insertion order. -/
structure VocabState where
  vocab : List (String × Nat)
  vocab_size : Nat
deriving DecidableEq, Repr

/-- Dictionary lookup `self.vocab[word]`. -/
def lookupVocab (v : List (String × Nat)) (w : String) : Option Nat :=
  match v with
  | [] => none
  | (w', i) :: rest => if w' = w then some i else lookupVocab rest w

/-- The `if word not in self.vocab` block: return the word's index,
inserting it with the next free index first when absent. -/
def addWord (st : VocabState) (w : String) : VocabState × Nat :=
  match lookupVocab st.vocab w with
  | some i => (st, i)
  | none => (⟨st.vocab ++ [(w, st.vocab_size)], st.vocab_size + 1⟩, st.vocab_size)

/-- `embedding[i] += x` on a 384-entry vector stored as a list. -/
def listAdd (l : List ℚ) (i : Nat) (x : ℚ) : List ℚ :=
  l.set i (l.getD i 0 + x)

/-- The `for i, word in enumerate(words)` loop of `_encode_texts`:
`n = len(words)`, accumulating `1.0 * (1 - i / max(n, 1))` into bucket
`self.vocab[word] % 384`. -/
def encodeLoop (n : Nat) : VocabState → List ℚ → Nat → List String →
    VocabState × List ℚ
  | st, emb, _, [] => (st, emb)
  | st, emb, i, w :: ws =>
    let p := addWord st w
    let pos : ℚ := (i : ℚ) / ((n.max 1 : ℕ) : ℚ)
    encodeLoop n p.1 (listAdd emb (p.2 % 384) (1 - pos)) (i + 1) ws

/-- Squared L2 norm of the accumulated vector. -/
def normSq (l : List ℚ) : ℚ := (l.map (fun x => x * x)).sum

/-- Body of `_encode_texts` for a single text: lower-case, split into words,
accumulate into a fresh 384-entry zero vector, and return the updated vocab
state together with (raw vector, squared norm). -/
def encode_one (st : VocabState) (text : String) :
    VocabState × (List ℚ × ℚ) :=
  let ws := pyWords (pyLower text)
  let p := encodeLoop ws.length st (List.replicate 384 0) 0 ws
  (p.1, (p.2, normSq p.2))

/-- `SimpleEmbeddingFallback._encode_texts` over a list of texts. -/
def encode_texts (st : VocabState) (texts : List String) :
    VocabState × List (List ℚ × ℚ) :=
  match texts with
  | [] => (st, [])
  | t :: ts =>
    let p := encode_one st t
    let q := encode_texts p.1 ts
    (q.1, p.2 :: q.2)

/-- `SimpleEmbeddingFallback.embed_query`: encode `[text]` and take the
first result, returning the updated embedder state as well. -/
def embed_query (st : VocabState) (text : String) :
    VocabState × (List ℚ × ℚ) :=
  encode_one st text

/-- A fresh `SimpleEmbeddingFallback()`. -/
def freshVocab : VocabState := ⟨[], 0⟩

/-! ### qa_engine.py

`ask_question` interacts with two external effects: the vector store's
`similarity_search` (whose outcome — a document list, or a raised
exception — is the `search` parameter) and the Groq chat-completion HTTP
request (the `groq` parameter maps the request's message list to its
outcome: a response with a status code and extracted/stripped message
content, or a raised exception, which also covers transport errors and
malformed JSON bodies).  The returned `Bool` records whether the
chat-completion request was issued.  The top-level `try` is the `match` on
`search`; the only other fallible operation, the API call, is wrapped in
the inner `try` whose handler falls back to `_simple_answer`. -/

/-- One chat message dict with `role` and `content` keys. -/
structure Msg where
  role : String
  content : String
deriving DecidableEq, Repr

/-- Outcome of the `requests.post` call to the Groq endpoint. -/
inductive GroqOutcome where
  /-- The request (or response parsing) raised an exception. -/
  | raised : GroqOutcome
  /-- A response with this status code; `content` is the stripped
  `choices[0].message.content` when the status is 200. -/
  | response (status : Nat) (content : String) : GroqOutcome
deriving DecidableEq, Repr

/-- The fixed refusal string. -/
def refusal : String := "The answer is not available on the provided website."

/-- The lower-case phrase `"i don't know"` tested by `startswith`. -/
def dont_know : String := "i don" ++ String.singleton apos ++ "t know"

/-- The lower-case phrase `"i'm sorry"` tested by `startswith`. -/
def im_sorry : String := "i" ++ String.singleton apos ++ "m sorry"

/-- The lower-case refusal phrase (no trailing period) searched for inside
the answer. -/
def refusal_phrase : String :=
  "the answer is not available on the provided website"

/-- The system prompt of `ask_question`. -/
def system_message : String :=
  "You are a helpful assistant that answers questions based ONLY on the provided website content.\nIf the answer to a question is not available in the provided context, respond EXACTLY with:\n\"The answer is not available on the provided website.\"\n\nDo not use any external knowledge or make assumptions. Base your answer strictly on the information provided in the context."

/-- Python `chat_history[-6:]`. -/
def lastSix (l : List Msg) : List Msg := l.drop (l.length - 6)

/-- Message-list assembly of `ask_question` (lines 44-62): the last six
history turns filtered to user/assistant roles, a system message inserted
in front, and a final user turn carrying the context and question. -/
def buildMessages (question : String) (chat_history : List Msg)
    (context : String) : List Msg :=
  let hist := (lastSix chat_history).filterMap fun m =>
    if m.role = "user" then some ⟨"user", m.content⟩
    else if m.role = "assistant" then some ⟨"assistant", m.content⟩
    else none
  ⟨"system", system_message⟩ ::
    (hist ++ [⟨"user", "Context from the website:\n" ++ context ++
      "\n\nQuestion: " ++ question⟩])

/-- The cue words of the definitional branch of `_simple_answer`. -/
def cue_words : List String := ["what is", "what are", "define", "explain"]

/-- The `question_words` stop list of `_simple_answer`. -/
def question_words : List String :=
  ["what", "is", "are", "the", "a", "an", "how", "why", "when", "where", "who"]

/-- `QAEngine._simple_answer`: keyword fallback.  A definitional question
tries sentences matching its first three key terms; failing that (or for
other questions) sentences matching words longer than three characters;
failing both, the refusal string. -/
def simple_answer (question context : String) : String :=
  let question_lower := pyLower question
  let sentences := pySplitCh context '.'
  let definitional : Option String :=
    if cue_words.any (fun w => containsStr question_lower w) then
      let key_terms := (pyWords question_lower).filter fun w =>
        decide (w ∉ question_words) && decide (2 < w.length)
      let relevant := sentences.filterMap fun s =>
        if (key_terms.take 3).any (fun t => containsStr (pyLower s) t) then
          some (pyStrip s)
        else none
      if relevant.isEmpty then none
      else some (String.intercalate ". " (relevant.take 2) ++ ".")
    else none
  match definitional with
  | some a => a
  | none =>
    let content_words := (pyWords question_lower).filter fun w =>
      decide (3 < w.length)
    let general : Option String :=
      if content_words.isEmpty then none
      else
        let matching := sentences.filterMap fun s =>
          if content_words.any (fun w => containsStr (pyLower s) w) then
            some (pyStrip s)
          else none
        if matching.isEmpty then none
        else some (String.intercalate ". " (matching.take 3) ++ ".")
    general.getD refusal

/-- The response-format check of `ask_question` (lines 91-99): empty
answers, answers starting with "i don't know" / "i'm sorry", and answers
containing the refusal phrase anywhere (all case-insensitive) become the
fixed refusal string. -/
def formatCheck (answer : String) : String :=
  if answer = "" || pyStartsWith (pyLower answer) dont_know ||
      pyStartsWith (pyLower answer) im_sorry then refusal
  else if containsStr (pyLower answer) refusal_phrase then refusal
  else answer

/-- The blank-line join of the retrieved documents' contents. -/
def contextOf (docs : List Document) : String :=
  String.intercalate "\n\n" (docs.map fun d => d.page_content)

/-- `QAEngine.ask_question`.  Returns the answer string and whether the
chat-completion request was issued.  A raised retrieval exception
(`search = .error ()`) reaches the top-level handler; an API failure is
caught by the inner handler and falls back to `_simple_answer`. -/
def ask_question (question : String) (chat_history : List Msg)
    (search : Except Unit (List Document)) (use_groq : Bool)
    (groq : List Msg → GroqOutcome) : String × Bool :=
  match search with
  | .error _ => (refusal, false)
  | .ok docs =>
    if docs.isEmpty then (refusal, false)
    else
      let context := contextOf docs
      let ac : String × Bool :=
        if use_groq then
          match groq (buildMessages question chat_history context) with
          | .response status content =>
            if status = 200 then (pyStrip content, true)
            else (simple_answer question context, true)
          | .raised => (simple_answer question context, true)
        else (simple_answer question context, false)
      (formatCheck ac.1, ac.2)

example : simple_answer "what is a" "A is B. C is D. E is F." = refusal := by
  decide

example : simple_answer "what is python" "Python is a language" =
    "Python is a language." := by decide

example :
    ask_question "what is python" []
      (.ok [⟨"Python is a language", ⟨"u", "t", 0, 1⟩⟩]) true
      (fun _ => .raised) = ("Python is a language.", true) := by decide

/-! ### Claims about the QA engine -/

/-- C1: when the similarity search over the active collection returns an
empty document list, `ask_question` returns exactly the fixed refusal string
and issues no chat-completion API call, whatever the question, history, API
availability and API behaviour. -/
theorem c1_empty_retrieval_refuses (question : String)
    (chat_history : List Msg) (use_groq : Bool)
    (groq : List Msg → GroqOutcome) :
    ask_question question chat_history (.ok []) use_groq groq =
      (refusal, false) := rfl

/-- C2 counterexample: an exception raised inside the flow — here the
chat-completion request itself — does not always produce the refusal
string: the inner handler falls back to `_simple_answer`, which returns a
real keyword answer for this input. -/
theorem c2_counterexample :
    ask_question "what is python" []
        (.ok [⟨"Python is a language", ⟨"u", "t", 0, 1⟩⟩]) true
        (fun _ => .raised) = ("Python is a language.", true) ∧
      ("Python is a language." : String) ≠ refusal := by decide

/-- C2 amended: `ask_question` never propagates an exception — it is a
total function into answer strings.  An exception reaching the top-level
handler (a raised retrieval) yields exactly the refusal string, while an
exception in the API call is caught by the inner handler and degrades to
the post-checked `_simple_answer` fallback, which need not be the refusal
string. -/
theorem c2_amended (question : String) (chat_history : List Msg)
    (use_groq : Bool) (groq : List Msg → GroqOutcome)
    (docs : List Document) (hne : docs ≠ [])
    (hraise : groq (buildMessages question chat_history (contextOf docs)) =
      .raised) :
    ask_question question chat_history (.error ()) use_groq groq =
        (refusal, false) ∧
      ask_question question chat_history (.ok docs) true groq =
        (formatCheck (simple_answer question (contextOf docs)), true) := by
  refine ⟨rfl, ?_⟩
  have h : docs.isEmpty = false := List.isEmpty_eq_false.mpr hne
  simp only [ask_question, h, Bool.false_eq_true, if_false, hraise]
  simp

/-- C2 amended witness at a concrete input. -/
theorem c2_amended_witness :
    ask_question "what is python" [] (.error ()) false (fun _ => .raised) =
        (refusal, false) ∧
      ask_question "what is python" []
        (.ok [⟨"Python is a language", ⟨"u", "t", 0, 1⟩⟩]) true
        (fun _ => .raised) =
        (formatCheck (simple_answer "what is python"
          (contextOf [⟨"Python is a language", ⟨"u", "t", 0, 1⟩⟩])), true) :=
  c2_amended "what is python" [] false (fun _ => .raised)
    [⟨"Python is a language", ⟨"u", "t", 0, 1⟩⟩] (by decide) rfl

/-- C3: on the primary path (the chat-completion call returns status 200
with some content), a candidate answer that is empty, or starts with
"i don't know" or "i'm sorry" (case-insensitive), or contains the refusal
phrase anywhere (case-insensitive), is normalised so that `ask_question`
returns exactly the fixed refusal string. -/
theorem c3_primary_path_normalised (question : String)
    (chat_history : List Msg) (docs : List Document)
    (groq : List Msg → GroqOutcome) (content : String) (hne : docs ≠ [])
    (hresp : groq (buildMessages question chat_history (contextOf docs)) =
      .response 200 content)
    (hbad : pyStrip content = "" ∨
      pyStartsWith (pyLower (pyStrip content)) dont_know = true ∨
      pyStartsWith (pyLower (pyStrip content)) im_sorry = true ∨
      containsStr (pyLower (pyStrip content)) refusal_phrase = true) :
    ask_question question chat_history (.ok docs) true groq =
      (refusal, true) := by
  have h : docs.isEmpty = false := List.isEmpty_eq_false.mpr hne
  simp only [ask_question, h, Bool.false_eq_true, if_false, hresp]
  rcases hbad with hb | hb | hb | hb <;> simp [formatCheck, hb]

/-- C3 witness: a 200 response whose content contains the refusal phrase. -/
theorem c3_witness :
    ([⟨"x", ⟨"u", "t", 0, 1⟩⟩] : List Document) ≠ [] ∧
      containsStr (pyLower (pyStrip
        "Unfortunately, The Answer is not Available on the Provided Website here"))
        refusal_phrase = true ∧
      ask_question "q" [] (.ok [⟨"x", ⟨"u", "t", 0, 1⟩⟩]) true
        (fun _ => .response 200
          "Unfortunately, The Answer is not Available on the Provided Website here") =
        (refusal, true) :=
  ⟨by decide, by decide,
    c3_primary_path_normalised "q" [] [⟨"x", ⟨"u", "t", 0, 1⟩⟩]
      (fun _ => .response 200
        "Unfortunately, The Answer is not Available on the Provided Website here")
      "Unfortunately, The Answer is not Available on the Provided Website here"
      (by decide) rfl (Or.inr (Or.inr (Or.inr (by decide))))⟩

/-- C7 counterexample: for context "A is B. C is D. E is F." and question
"what is a", the fallback answerer does not return "A is B.". -/
theorem c7_counterexample :
    simple_answer "what is a" "A is B. C is D. E is F." ≠ "A is B." := by
  decide

/-- C7 amended: for that context and question `_simple_answer` returns the
refusal string: every token of the question ("what", "is", "a") is a stop
word or at most two characters long, so the definitional path extracts no
key terms, and the general path's only long token "what" occurs in no
sentence. -/
theorem c7_amended :
    simple_answer "what is a" "A is B. C is D. E is F." = refusal := by
  decide

/-! ### Claims about URL validation -/

/-- C6 counterexample: "ftp://example.com" has both a scheme and a network
location, yet `validate_url` rejects it (the scheme is not http/https). -/
theorem c6_counterexample :
    urlscheme "ftp://example.com" ≠ "" ∧
      urlnetloc "ftp://example.com" ≠ "" ∧
      validate_url "ftp://example.com" = false := by decide

/-- C6 amended: `utils.validate_url` accepts exactly the strings that
`urlsplit` parses without raising its invalid-IPv6 bracket error and whose
network location is nonempty with scheme `http` or `https`; the crawler's
`_is_valid_url` accepts exactly those that parse without raising and have
a nonempty network location and any nonempty scheme.  In particular both
reject every string missing a scheme or a network location, and every
string whose parse raises. -/
theorem c6_amended (url : String) :
    (validate_url url = true ↔
      (urlsplitOk url.data = true ∧ urlnetloc url ≠ "" ∧
        (urlscheme url = "http" ∨ urlscheme url = "https"))) ∧
      (is_valid_url url = true ↔
        (urlsplitOk url.data = true ∧ urlnetloc url ≠ "" ∧
          urlscheme url ≠ "")) := by
  by_cases h : urlsplitOk url.data = true <;>
    constructor <;>
      simp [validate_url, is_valid_url, h, Bool.and_eq_true, decide_eq_true_eq]

/-! ### Claim about the chunker pre-clean (C8)

`_clean_text` first runs `re.sub(r'\s+', ' ', text.strip())`, which
replaces every newline by a space; the later blank-line collapse and the
per-line length-10 filter therefore always see a single line.  A short
line without terminal punctuation is merged into its neighbours and kept
whenever the merged text reaches 10 characters. -/

/-- C8 evaluation at the failing input: the 2-character line "hi" (no
terminal punctuation) is not dropped — it is merged into the following long
line and survives in the output. -/
theorem c8_short_line_kept :
    clean_text "hi\nThis is a sufficiently long line." =
        "hi This is a sufficiently long line." ∧
      clean_text "hi\nThis is a sufficiently long line." ≠
        "This is a sufficiently long line." ∧
      clean_text "ab\ncd\nef\ngh" = "ab cd ef gh" := by decide

/-! ### Claims about collection names -/

/-- Every character produced by the invalid-character substitution lies in
`[a-zA-Z0-9.-]`. -/
theorem mem_mapInvalid {c : Char} {l : List Char} (h : c ∈ mapInvalid l) :
    isCollChar c = true := by
  rcases List.mem_map.mp h with ⟨a, _, rfl⟩
  by_cases ha : isCollChar a = true
  · simp [ha]
  · rw [if_neg ha]; decide

/-- The head surviving a `dropWhile` falsifies the dropped predicate. -/
theorem head_dropWhile_false {α : Type} (p : α → Bool) :
    ∀ {l : List α} {c : α}, (l.dropWhile p).head? = some c → p c = false := by
  intro l
  induction l with
  | nil => intro c h; simp at h
  | cons a l ih =>
    intro c h
    by_cases hp : p a = true
    · exact ih (by simpa [List.dropWhile_cons, hp] using h)
    · rw [List.dropWhile_cons, if_neg (by simp [hp])] at h
      cases h
      simpa using hp

/-- Edge trimming only removes characters. -/
theorem mem_trimEdges {c : Char} {l : List Char} (h : c ∈ trimEdges l) :
    c ∈ l := by
  unfold trimEdges at h
  rw [List.mem_reverse] at h
  have h1 := (List.dropWhile_suffix (l := (l.dropWhile
    (fun c => !isAlnum c)).reverse) (fun c => !isAlnum c)).mem h
  rw [List.mem_reverse] at h1
  exact (List.dropWhile_suffix (fun c => !isAlnum c)).mem h1

/-- The first character surviving edge trimming is alphanumeric. -/
theorem trimEdges_head {l : List Char} {c : Char}
    (h : (trimEdges l).head? = some c) : isAlnum c = true := by
  unfold trimEdges at h
  rw [List.head?_reverse] at h
  set q : Char → Bool := fun c => !isAlnum c with hq
  set k := l.dropWhile q with hk
  set r := k.reverse.dropWhile q with hr
  have hrne : r ≠ [] := by
    intro he; rw [he] at h; simp at h
  obtain ⟨t, ht⟩ := List.dropWhile_suffix (l := k.reverse) q
  have h2 : k.reverse.getLast? = r.getLast? := by
    rw [← ht]; exact List.getLast?_append_of_ne_nil t hrne
  rw [← h2, List.getLast?_reverse] at h
  have := head_dropWhile_false q h
  simpa [hq] using this

/-- A nonempty list of collection characters whose head is alphanumeric is
a valid collection name. -/
theorem validCollName_of {l : List Char}
    (h1 : ∀ c ∈ l, isCollChar c = true)
    (h2 : ∀ c, l.head? = some c → isAlnum c = true) (hne : l ≠ []) :
    validCollName ⟨l⟩ = true := by
  cases l with
  | nil => exact absurd rfl hne
  | cons c rest =>
    simp only [validCollName, Bool.and_eq_true, List.all_eq_true]
    exact ⟨h2 c rfl, fun x hx => h1 x (List.mem_cons_of_mem c hx)⟩

/-- Validity is preserved by positive-length truncation. -/
theorem validCollName_take {l : List Char} (n : Nat) (hn : 0 < n)
    (h : validCollName ⟨l⟩ = true) : validCollName ⟨l.take n⟩ = true := by
  cases l with
  | nil => simp [validCollName] at h
  | cons c rest =>
    cases n with
    | zero => omega
    | succ n =>
      simp only [List.take_succ_cons, validCollName, Bool.and_eq_true,
        List.all_eq_true] at h ⊢
      exact ⟨h.1, fun x hx => h.2 x (List.take_subset n rest hx)⟩

/-- C4 counterexample: for the source URL "http://!!!" the code produces
"site-default" while the claim's described computation (prepend only the
fixed "site-" prefix when shorter than 3 characters) produces "site-". -/
theorem c4_counterexample :
    generate_collection_name "http://!!!" = "site-default" ∧
      claimCollectionName "http://!!!" = "site-" ∧
      generate_collection_name "http://!!!" ≠
        claimCollectionName "http://!!!" := by decide

/-- C4 amended: collection-name derivation is a deterministic pure function
of the source URL's domain (it factors through `urlparse(url).netloc`),
computed by stripping a leading `www.`, replacing characters outside
`[A-Za-z0-9.-]` with `-`, trimming non-alphanumeric edges, prepending
`site-` when shorter than 3 characters (with the literal `default`
standing in for an empty result), and truncating to 50 characters; the
result always matches `^[A-Za-z0-9][A-Za-z0-9.-]*$` and has length at
most 50. -/
theorem c4_amended (url : String) :
    generate_collection_name url =
        collection_name_of_domain (urlnetloc url) ∧
      validCollName (generate_collection_name url) = true ∧
      (generate_collection_name url).length ≤ 50 := by
  refine ⟨rfl, ?_, ?_⟩
  · show validCollName
      ⟨(padShort (trimEdges (mapInvalid (stripWww (urlnetloc url).data)))).take 50⟩ = true
    apply validCollName_take 50 (by omega)
    set m := mapInvalid (stripWww (urlnetloc url).data) with hm
    have hmem : ∀ c ∈ trimEdges m, isCollChar c = true :=
      fun c hc => mem_mapInvalid (mem_trimEdges hc)
    unfold padShort
    by_cases hlen : (trimEdges m).length < 3
    · rw [if_pos hlen]
      have hsite : ∀ x ∈ "site-".data, isCollChar x = true := by decide
      have hdefault : ∀ x ∈ "default".data, isCollChar x = true := by decide
      apply validCollName_of
      · intro c hc
        rcases List.mem_append.mp hc with hc | hc
        · exact hsite c hc
        · by_cases hemp : (trimEdges m).isEmpty
          · rw [if_pos hemp] at hc; exact hdefault c hc
          · rw [if_neg hemp] at hc; exact hmem c hc
      · intro c hc
        have hs : ("site-".data ++
            (if (trimEdges m).isEmpty = true then "default".data
              else trimEdges m)).head? = some 's' := rfl
        rw [hs] at hc
        cases hc
        decide
      · simp
    · rw [if_neg hlen]
      have hne : trimEdges m ≠ [] := by
        intro he; rw [he] at hlen; simp at hlen
      exact validCollName_of hmem (fun c hc => trimEdges_head hc) hne
  · show (String.mk ((padShort (trimEdges (mapInvalid
      (stripWww (urlnetloc url).data)))).take 50)).length ≤ 50
    simp [String.length, List.length_take]

/-! ### Claims about the chunker output (C5, C10) -/

/-- The document loop produces one document per chunk. -/
theorem docsLoop_length (u t : String) (total : Nat) :
    ∀ (chunks : List String) (j : Nat),
      (docsLoop u t total j chunks).length = chunks.length := by
  intro chunks
  induction chunks with
  | nil => intro j; rfl
  | cons c rest ih => intro j; simp [docsLoop, ih (j + 1)]

/-- The document at position `i` of the loop started at `j` is the stripped
chunk at position `i` with index `j + i`. -/
theorem docsLoop_getElem? (u t : String) (total : Nat) :
    ∀ (chunks : List String) (j i : Nat),
      (docsLoop u t total j chunks)[i]? =
        (chunks[i]?).map (fun c => ⟨pyStrip c, ⟨u, t, j + i, total⟩⟩) := by
  intro chunks
  induction chunks with
  | nil => intro j i; simp [docsLoop]
  | cons c rest ih =>
    intro j i
    cases i with
    | zero => simp [docsLoop]
    | succ i =>
      have h : j + 1 + i = j + (i + 1) := by omega
      simp only [docsLoop, List.getElem?_cons_succ, ih (j + 1) i, h]

/-- Every document produced by the loop carries a stripped chunk text. -/
theorem mem_docsLoop (u t : String) (total : Nat) :
    ∀ (chunks : List String) (j : Nat) (d : Document),
      d ∈ docsLoop u t total j chunks →
        ∃ c ∈ chunks, d.page_content = pyStrip c := by
  intro chunks
  induction chunks with
  | nil => intro j d h; simp [docsLoop] at h
  | cons c rest ih =>
    intro j d h
    rcases List.mem_cons.mp h with rfl | h
    · exact ⟨c, List.mem_cons_self c rest, rfl⟩
    · rcases ih (j + 1) d h with ⟨cw, hcw, he⟩
      exact ⟨cw, List.mem_cons_of_mem c hcw, he⟩

/-- C5: for every splitter behaviour, page content and source URL, each
document produced by `process_and_chunk` carries `chunk_index` equal to its
position, `total_chunks` equal to the number of produced documents, and any
two produced documents share `source_url` and `page_title`. -/
theorem c5_chunk_metadata (splitText : String → List String)
    (cd : Option ContentData) (url : String) (i j : Nat) (di dj : Document)
    (hi : (process_and_chunk splitText cd url)[i]? = some di)
    (hj : (process_and_chunk splitText cd url)[j]? = some dj) :
    di.metadata.chunk_index = i ∧
      di.metadata.total_chunks = (process_and_chunk splitText cd url).length ∧
      di.metadata.source_url = dj.metadata.source_url ∧
      di.metadata.page_title = dj.metadata.page_title := by
  match cd with
  | none => simp [process_and_chunk] at hi
  | some cdv =>
    match hc : cdv.content with
    | none => simp [process_and_chunk, hc] at hi
    | some content =>
      simp only [process_and_chunk, hc] at hi hj ⊢
      by_cases hcl : pyStrip (clean_text content) = ""
      · rw [if_pos hcl] at hi; simp at hi
      · rw [if_neg hcl] at hi hj ⊢
        rw [docsLoop_getElem?] at hi hj
        rcases Option.map_eq_some'.mp hi with ⟨ci, hci, rfl⟩
        rcases Option.map_eq_some'.mp hj with ⟨cj, hcj, rfl⟩
        refine ⟨by simp, ?_, rfl, rfl⟩
        rw [docsLoop_length]

/-- C5 witness at a concrete splitter and page. -/
theorem c5_chunk_metadata_witness :
    (process_and_chunk (fun s => [s, s])
        (some ⟨some "T", some "This is a sufficiently long content line."⟩)
        "u")[0]? =
        some ⟨"This is a sufficiently long content line.", ⟨"u", "T", 0, 2⟩⟩ ∧
      (process_and_chunk (fun s => [s, s])
        (some ⟨some "T", some "This is a sufficiently long content line."⟩)
        "u")[1]? =
        some ⟨"This is a sufficiently long content line.", ⟨"u", "T", 1, 2⟩⟩ ∧
      ((⟨"This is a sufficiently long content line.", ⟨"u", "T", 0, 2⟩⟩ :
          Document).metadata.chunk_index = 0 ∧
        (⟨"This is a sufficiently long content line.", ⟨"u", "T", 0, 2⟩⟩ :
          Document).metadata.total_chunks =
          (process_and_chunk (fun s => [s, s])
            (some ⟨some "T", some "This is a sufficiently long content line."⟩)
            "u").length ∧
        (⟨"This is a sufficiently long content line.", ⟨"u", "T", 0, 2⟩⟩ :
          Document).metadata.source_url =
          (⟨"This is a sufficiently long content line.", ⟨"u", "T", 1, 2⟩⟩ :
          Document).metadata.source_url ∧
        (⟨"This is a sufficiently long content line.", ⟨"u", "T", 0, 2⟩⟩ :
          Document).metadata.page_title =
          (⟨"This is a sufficiently long content line.", ⟨"u", "T", 1, 2⟩⟩ :
          Document).metadata.page_title) :=
  ⟨by decide, by decide,
    c5_chunk_metadata (fun s => [s, s])
      (some ⟨some "T", some "This is a sufficiently long content line."⟩)
      "u" 0 1 _ _ (by decide) (by decide)⟩

/-- The head of a doubly trimmed list falsifies the trimming predicate. -/
theorem head_trimBoth {α : Type} (p : α → Bool) {l : List α} {c : α}
    (h : (((l.dropWhile p).reverse.dropWhile p).reverse).head? = some c) :
    p c = false := by
  rw [List.head?_reverse] at h
  obtain ⟨t, ht⟩ := List.dropWhile_suffix (l := (l.dropWhile p).reverse) p
  have hrne : (l.dropWhile p).reverse.dropWhile p ≠ [] := by
    intro he; rw [he] at h; simp at h
  have h2 : ((l.dropWhile p).reverse).getLast? =
      ((l.dropWhile p).reverse.dropWhile p).getLast? := by
    conv_lhs => rw [← ht]
    exact List.getLast?_append_of_ne_nil t hrne
  rw [← h2, List.getLast?_reverse] at h
  exact head_dropWhile_false p h

/-- The first character of a stripped string is not whitespace. -/
theorem stripCore_head {l : List Char} {c : Char}
    (h : (stripCore l).head? = some c) : pyIsSpace c = false :=
  head_trimBoth pyIsSpace h

/-- The last character of a stripped string is not whitespace. -/
theorem stripCore_last {l : List Char} {c : Char}
    (h : (stripCore l).getLast? = some c) : pyIsSpace c = false := by
  unfold stripCore at h
  rw [List.getLast?_reverse] at h
  exact head_dropWhile_false pyIsSpace h

/-- Python `strip()` leaves no whitespace at either edge. -/
theorem hasNoEdgeWs_pyStrip (s : String) : hasNoEdgeWs (pyStrip s) = true := by
  show ((match (stripCore s.data).head? with
      | some c => !pyIsSpace c | none => true) &&
    (match (stripCore s.data).getLast? with
      | some c => !pyIsSpace c | none => true)) = true
  rw [Bool.and_eq_true]
  constructor
  · split
    · next c hh => simp [stripCore_head hh]
    · rfl
  · split
    · next c hh => simp [stripCore_last hh]
    · rfl

/-- C10: every document produced by `process_and_chunk` has page content
with no leading or trailing whitespace — each chunk is stripped before its
`Document` is created. -/
theorem c10_content_stripped (splitText : String → List String)
    (cd : Option ContentData) (url : String) (d : Document)
    (hd : d ∈ process_and_chunk splitText cd url) :
    hasNoEdgeWs d.page_content = true := by
  match cd with
  | none => simp [process_and_chunk] at hd
  | some cdv =>
    match hc : cdv.content with
    | none => simp [process_and_chunk, hc] at hd
    | some content =>
      simp only [process_and_chunk, hc] at hd
      by_cases hcl : pyStrip (clean_text content) = ""
      · rw [if_pos hcl] at hd; simp at hd
      · rw [if_neg hcl] at hd
        rcases mem_docsLoop _ _ _ _ _ _ hd with ⟨c, _, he⟩
        rw [he]
        exact hasNoEdgeWs_pyStrip c

/-- C10 witness: a splitter that adds surrounding spaces, which the loop
strips away again. -/
theorem c10_content_stripped_witness :
    (⟨"This is a sufficiently long content line.", ⟨"u", "T", 0, 1⟩⟩ :
        Document) ∈
      process_and_chunk (fun s => [" " ++ s ++ " "])
        (some ⟨some "T", some "This is a sufficiently long content line."⟩)
        "u" ∧
      hasNoEdgeWs (⟨"This is a sufficiently long content line.",
        ⟨"u", "T", 0, 1⟩⟩ : Document).page_content = true :=
  ⟨by decide,
    c10_content_stripped (fun s => [" " ++ s ++ " "])
      (some ⟨some "T", some "This is a sufficiently long content line."⟩)
      "u" _ (by decide)⟩

/-! ### Claims about the fallback embedder (C9) -/

/-- Sum of a zero vector with one entry set. -/
theorem sum_set_replicate_zero :
    ∀ (n i : Nat), i < n → ∀ (x : ℚ),
      ((List.replicate n (0:ℚ)).set i x).sum = x := by
  intro n
  induction n with
  | zero => omega
  | succ n ih =>
    intro i hi x
    cases i with
    | zero => simp [List.replicate_succ, List.sum_replicate]
    | succ i => simp [List.replicate_succ, List.set_cons_succ, ih i (by omega) x]

/-- Reading any coordinate of the zero vector gives zero. -/
theorem getD_replicate_zero :
    ∀ (n i : Nat), (List.replicate n (0:ℚ)).getD i 0 = 0 := by
  intro n
  induction n with
  | zero => intro i; simp
  | succ n ih => intro i; cases i <;> simp [List.replicate_succ, ih]

/-- Evaluation of the encoder on a single-word text: the word's bucket is
its vocabulary index mod 384, its weight is `1 - 0/1 = 1`, and the squared
norm is 1. -/
theorem encode_one_single (st : VocabState) (text w : String)
    (hw : pyWords (pyLower text) = [w]) :
    (encode_one st text).2 =
      ((List.replicate 384 (0:ℚ)).set ((addWord st w).2 % 384) 1, 1) := by
  simp only [encode_one, hw, encodeLoop, listAdd, List.length_cons,
    List.length_nil, normSq, getD_replicate_zero, Nat.max_self]
  norm_num
  exact sum_set_replicate_zero 384 _ (Nat.mod_lt _ (by omega)) 1

/-- Evaluation of the fallback embedding of "a" on a fresh embedder: the
word "a" lands in bucket 0 with weight 1. -/
theorem embed_raw_fresh_a :
    (embed_query freshVocab "a").2 =
      ((List.replicate 384 (0:ℚ)).set 0 1, 1) := by
  have h := encode_one_single freshVocab "a" "a" (by decide)
  have ha : (addWord freshVocab "a").2 % 384 = 0 := by decide
  rw [ha] at h
  exact h

/-- Evaluation of the fallback embedding of "a" after "b" was embedded
first: the word "a" now lands in bucket 1. -/
theorem embed_raw_after_b :
    (embed_query (embed_query freshVocab "b").1 "a").2 =
      ((List.replicate 384 (0:ℚ)).set 1 1, 1) := by
  have h := encode_one_single (embed_query freshVocab "b").1 "a" "a" (by decide)
  have ha : (addWord (embed_query freshVocab "b").1 "a").2 % 384 = 1 := by
    decide
  rw [ha] at h
  exact h

/-- C9 counterexample: the fallback embedding of a text is not independent
of the prior call sequence.  Run A embeds "a" on a fresh embedder; run B
embeds "b" first and then "a".  The two results for "a" differ — both as
raw (vector, squared norm) pairs and as the denoted L2-normalised real
vectors, whose entries at coordinate 0 are 1 and 0. -/
theorem c9_counterexample :
    (embed_query freshVocab "a").2 ≠
        (embed_query (embed_query freshVocab "b").1 "a").2 ∧
      ((embed_query freshVocab "a").2.1.getD 0 0 : ℝ) /
          Real.sqrt ((embed_query freshVocab "a").2.2 : ℝ) ≠
        ((embed_query (embed_query freshVocab "b").1 "a").2.1.getD 0 0 : ℝ) /
          Real.sqrt ((embed_query (embed_query freshVocab "b").1 "a").2.2 : ℝ) := by
  constructor
  · rw [embed_raw_fresh_a, embed_raw_after_b]
    exact (by decide :
      ((List.replicate 384 (0:ℚ)).set 0 1, (1:ℚ)) ≠
        ((List.replicate 384 (0:ℚ)).set 1 1, 1))
  · rw [embed_raw_fresh_a, embed_raw_after_b]
    have e1 : ((List.replicate 384 (0:ℚ)).set 0 1).getD 0 0 = 1 := by decide
    have e2 : ((List.replicate 384 (0:ℚ)).set 1 1).getD 0 0 = 0 := by decide
    simp only [e1, e2]
    simp [Real.sqrt_one]

/-- C9 amended: the fallback embedding is deterministic as a function of
the embedder's accumulated vocabulary and the text: whenever two vocabulary
states assign the same (present) index to every word of the text, encoding
the text yields identical (vector, squared norm) results — in particular,
identical prior call sequences give identical vectors, but prior call
sequences that assign different buckets change the vector, as the
counterexample shows. -/
theorem c9_amended (st₁ st₂ : VocabState) (text : String)
    (h : ∀ w ∈ pyWords (pyLower text),
      (lookupVocab st₁.vocab w).isSome = true ∧
        lookupVocab st₁.vocab w = lookupVocab st₂.vocab w) :
    (encode_one st₁ text).2 = (encode_one st₂ text).2 := by
  suffices hloop : ∀ (ws : List String) (n : Nat) (emb : List ℚ) (i : Nat)
      (s₁ s₂ : VocabState),
      (∀ w ∈ ws, (lookupVocab s₁.vocab w).isSome = true ∧
        lookupVocab s₁.vocab w = lookupVocab s₂.vocab w) →
      (encodeLoop n s₁ emb i ws).2 = (encodeLoop n s₂ emb i ws).2 by
    simp only [encode_one]
    rw [hloop (pyWords (pyLower text)) _ _ _ st₁ st₂ h]
  intro ws
  induction ws with
  | nil => intro n emb i s₁ s₂ hh; rfl
  | cons w rest ih =>
    intro n emb i s₁ s₂ hh
    have hw := hh w (List.mem_cons_self w rest)
    rcases Option.isSome_iff_exists.mp hw.1 with ⟨k, hk⟩
    have hk₂ : lookupVocab s₂.vocab w = some k := by rw [← hw.2]; exact hk
    simp only [encodeLoop, addWord, hk, hk₂]
    exact ih n _ (i + 1) s₁ s₂ fun x hx => hh x (List.mem_cons_of_mem w hx)

/-- C9 amended witness: the states reached by embedding "a b" and by
embedding just "a" assign the same index to "a", so encoding "a" from
either state gives the same vector. -/
theorem c9_amended_witness :
    (∀ w ∈ pyWords (pyLower "a"),
      (lookupVocab (embed_query freshVocab "a b").1.vocab w).isSome = true ∧
        lookupVocab (embed_query freshVocab "a b").1.vocab w =
          lookupVocab (embed_query freshVocab "a").1.vocab w) ∧
      (encode_one (embed_query freshVocab "a b").1 "a").2 =
        (encode_one (embed_query freshVocab "a").1 "a").2 :=
  ⟨by decide,
    c9_amended (embed_query freshVocab "a b").1 (embed_query freshVocab "a").1
      "a" (by decide)⟩

end Chatbot
